import Mathlib

/-!
Shallow embedding of the SUPER Android Analyzer front-end (`src/main.rs`):
the severity model `Criticality` with its parsing, formatting and structured
(de)serialization, and the run controller / per-package pipeline orchestrator
(`run` and `analyze_package`) with its benchmark ledger (a `BTreeMap` from
package name to the recorded benchmarks).

External collaborators (the stage tools, the results accumulator, the report
opener, the clock) are modelled as an oracle record supplying each call's
outcome; machine strings are Lean `String`s, and Rust's Unicode lowercasing is
modelled by ASCII lowercasing (`to_lowercase`), which agrees with it on every
string relevant to the severity names (none of the five names contains a
character reachable by lowercasing a non-ASCII character).
-/

namespace SuperAnalyzer

/-- Vulnerability criticality (`enum Criticality` in `main.rs`). -/
inductive Criticality where
  | warning
  | low
  | medium
  | high
  | critical
  deriving DecidableEq, Repr

/-- Rust's `str::to_lowercase`, modelled as ASCII lowercasing character by
character (`Char.toLower` lowercases exactly the ASCII uppercase letters).
This agrees with Unicode lowercasing on all ASCII input. -/
def to_lowercase (s : String) : String :=
  ⟨s.data.map Char.toLower⟩

namespace Criticality

/-- Rust's derived `Debug` formatting: the variant name as written. -/
def debugFmt : Criticality → String
  | .warning => "Warning"
  | .low => "Low"
  | .medium => "Medium"
  | .high => "High"
  | .critical => "Critical"

/-- The `Display` impl: `format!("{:?}", self).to_lowercase()`. -/
def display (c : Criticality) : String :=
  to_lowercase (debugFmt c)

/-- `ErrorKind::Parse`, the error of the `FromStr` impl. -/
inductive ErrorKind where
  | Parse
  deriving DecidableEq, Repr

/-- The `FromStr` impl: match on `s.to_lowercase()` against the five
canonical names, in the order written in the source. -/
def from_str (s : String) : Except ErrorKind Criticality :=
  let l := to_lowercase s
  if l = "critical" then .ok .critical
  else if l = "high" then .ok .high
  else if l = "medium" then .ok .medium
  else if l = "low" then .ok .low
  else if l = "warning" then .ok .warning
  else .error ErrorKind.Parse

end Criticality

/-- A structured (`toml::value::Value`) node, as far as the `Deserialize`
impl inspects it: a string node or any non-string node (integer, boolean,
array of nodes, table of named nodes). -/
inductive TomlValue where
  | str (s : String)
  | int (n : Int)
  | boolean (b : Bool)
  | array (xs : List TomlValue)
  | table (kvs : List (String × TomlValue))

/-- Whether a structured node is a string node. -/
def TomlValue.isStr : TomlValue → Bool
  | .str _ => true
  | _ => false

/-- The error produced through `serde::de::Error::custom(format!("Unexpected
value: ...", deser_result))`: it carries the offending structured value. -/
inductive DeserError where
  | custom (offending : TomlValue)

namespace Criticality

/-- The `Serialize` impl: `serializer.serialize_str(format!("{}", self))`,
i.e. the severity persists as its lowercase name in the structured form. -/
def serialize (c : Criticality) : TomlValue :=
  .str (display c)

/-- The `Deserialize` impl: deserialize a structured node; a string node is
parsed with `from_str` (an unparsable string errors with the offending value);
any non-string node errors with the offending value. -/
def deserialize (v : TomlValue) : Except DeserError Criticality :=
  match v with
  | .str s =>
    match from_str s with
    | .ok criticality => .ok criticality
    | .error _ => .error (.custom v)
  | _ => .error (.custom v)

end Criticality

/-- The five canonical severity names, lowercase. -/
def canonicalNames : List String :=
  ["warning", "low", "medium", "high", "critical"]

/-- A named elapsed-time measurement (`Benchmark::new(label, duration)`);
durations are abstract `Nat` ticks supplied by the clock oracle. -/
structure Benchmark where
  label : String
  duration : Nat
  deriving DecidableEq, Repr

/-- The benchmark ledger `BTreeMap<String, Vec<Benchmark>>`, modelled as an
association list kept sorted by key: `BTreeMap` stores and iterates entries in
ascending key order. -/
abbrev Ledger := List (String × List Benchmark)

/-- Lexicographic comparison of character lists by Unicode scalar value.
UTF-8 byte order — the order of Rust's `Ord for String`, hence of the
`BTreeMap` keys — coincides with scalar-value lexicographic order. -/
def charListLtb : List Char → List Char → Bool
  | _, [] => false
  | [], _ :: _ => true
  | a :: as, b :: bs =>
    if a.toNat < b.toNat then true
    else if b.toNat < a.toNat then false
    else charListLtb as bs

/-- Rust's `Ord for String`, the `BTreeMap` key order: lexicographic. -/
def strLtb (a b : String) : Bool :=
  charListLtb a.data b.data

/-- `BTreeMap::insert`: place the binding at its sorted position, replacing an
existing binding of the same key. -/
def bInsert (k : String) (v : List Benchmark) : Ledger → Ledger
  | [] => [(k, v)]
  | (k', v') :: rest =>
    if strLtb k k' then (k, v) :: (k', v') :: rest
    else if k = k' then (k, v) :: rest
    else (k', v') :: bInsert k v rest

/-- `BTreeMap::get`: the value bound to `k`, if any. -/
def bLookup (k : String) : Ledger → Option (List Benchmark)
  | [] => none
  | (k', v') :: rest => if k' = k then some v' else bLookup k rest

/-- `benchmarks.get_mut(&name).unwrap().push(b)`. The key is present whenever
this line runs (the bench-enabled run inserted it at package start), so the
absent-key case — a Rust panic — is modelled as a no-op. -/
def bPush (k : String) (b : Benchmark) : Ledger → Ledger
  | [] => []
  | (k', v') :: rest =>
    if k' = k then (k', v' ++ [b]) :: rest else (k', v') :: bPush k b rest

/-- The slice of the configuration the orchestrator reads or writes.
`force` is the per-package "force" override; `config.reset_force()` lives in
the library crate and is modelled from the spec: it clears the override. -/
structure Config where
  bench : Bool
  quiet : Bool
  verbose : Bool
  openReport : Bool
  generateHtml : Bool
  resultsFolder : String
  appPackages : List String
  force : Option Bool
  deriving Repr

/-- An external process exit status (`std::process::ExitStatus`). -/
structure ExitStatus where
  code : Nat
  deriving DecidableEq, Repr

/-- `ExitStatus::success()`: exit code zero. -/
def ExitStatus.success (s : ExitStatus) : Bool :=
  s.code == 0

/-- The `Display` of an exit status (Unix form), as interpolated into the
report-opening error message. -/
def ExitStatus.statusLine (s : ExitStatus) : String :=
  "exit status: " ++ toString s.code

/-- The calls `analyze_package` makes to its collaborators, in pipeline
order. -/
inductive StageCall where
  | decompress
  | dexToJar
  | decompile
  | resultsInit
  | staticAnalysis
  | generateReport
  | openReport
  deriving DecidableEq, Repr

/-- Observable events of a run, in the order they happen: package start
(recording the force override the pipeline observes), ledger registration,
collaborator invocations, benchmark construction and ledger appends. -/
inductive Event where
  | packageStart (pkg : String) (force : Option Bool)
  | ledgerInsert (name : String)
  | stageInvoked (s : StageCall) (pkg : String)
  | benchNew (b : Benchmark)
  | ledgerPush (name : String) (b : Benchmark)
  deriving DecidableEq, Repr

/-- The external collaborators, as an oracle fixing each call's outcome:
`get_package_name`, the three stage tools, `Results::init`,
`Results::get_app_package`, `Results::generate_report`, `open::that`, the
clock (`elapsed pkg i` is the `i`-th `Instant::elapsed` reading of the
package's pipeline, `total_elapsed` the whole run's), and the force override
the library-side stages leave on the `&mut` configuration. -/
structure Stages where
  get_package_name : String → String
  decompress : String → Except String Unit
  dex_to_jar : String → Except String Unit
  decompile : String → Except String Unit
  results_init : String → Except String Unit
  app_package : String → String
  generate_report : String → Except String Unit
  open_that : String → Except String ExitStatus
  elapsed : String → Nat → Nat
  total_elapsed : Nat
  force_effect : String → Option Bool → Option Bool

/-- Ledger-and-trace state threaded through one package's pipeline. -/
structure PSt where
  ledger : Ledger
  events : List Event

/-- Record one event. -/
def emit (e : Event) (s : PSt) : PSt :=
  {s with events := s.events ++ [e]}

/-- One `if config.is_bench()` block of `analyze_package`: construct the
stage benchmark and push it onto this package's ledger entry. -/
def benchStep (bench : Bool) (name label : String) (dur : Nat) (s : PSt) : PSt :=
  if bench then
    let b : Benchmark := ⟨label, dur⟩
    { ledger := bPush name b s.ledger,
      events := s.events ++ [Event.benchNew b, Event.ledgerPush name b] }
  else s

/-- The outcome of `analyze_package`: its `Result`, the configuration left
behind, the ledger, and the events of this package's pipeline. -/
structure APResult where
  res : Except (List String) Unit
  cfg : Config
  ledger : Ledger
  events : List Event

/-- `analyze_package(package, &mut config, &mut benchmarks)`: resolve the
display name; if benchmarking, register a fresh empty benchmark list under it
(`BTreeMap::insert`); run decompress, dex-to-jar and decompile, each wrapped
with its stage context message and each followed by its benchmark push;
initialize the results accumulator (`?` with no added context); run static
analysis (infallible at this level) and push its benchmark; generate the
report (wrapped with a message naming the target path) and push the report
and total benchmarks; finally, if the open-report option is set, open the
generated artifact and fail on an unopenable report or a non-success exit
status. Errors are causation chains, context first. -/
def analyze_package (st : Stages) (pkg : String) (cfg0 : Config) (led0 : Ledger) :
    APResult :=
  let package_name := st.get_package_name pkg
  let s0 : PSt := ⟨led0, [Event.packageStart pkg cfg0.force]⟩
  let s1 := if cfg0.bench then
      { ledger := bInsert package_name [] s0.ledger,
        events := s0.events ++ [Event.ledgerInsert package_name] : PSt }
    else s0
  let cfg := {cfg0 with force := st.force_effect pkg cfg0.force}
  let s2 := emit (.stageInvoked .decompress pkg) s1
  match st.decompress pkg with
  | .error cause => ⟨.error ["apk decompression failed", cause], cfg, s2.ledger, s2.events⟩
  | .ok _ =>
  let s3 := benchStep cfg.bench package_name "Apk decompression" (st.elapsed pkg 0) s2
  let s4 := emit (.stageInvoked .dexToJar pkg) s3
  match st.dex_to_jar pkg with
  | .error cause => ⟨.error ["Conversion from DEX to JAR failed", cause], cfg, s4.ledger, s4.events⟩
  | .ok _ =>
  let s5 := benchStep cfg.bench package_name "Dex to Jar decompilation (dex2jar Java dependency)"
      (st.elapsed pkg 1) s4
  let s6 := emit (.stageInvoked .decompile pkg) s5
  match st.decompile pkg with
  | .error cause => ⟨.error ["JAR decompression failed", cause], cfg, s6.ledger, s6.events⟩
  | .ok _ =>
  let s7 := benchStep cfg.bench package_name "Decompilation (jd-cli Java dependency)"
      (st.elapsed pkg 2) s6
  let s8 := emit (.stageInvoked .resultsInit pkg) s7
  match st.results_init pkg with
  | .error cause => ⟨.error [cause], cfg, s8.ledger, s8.events⟩
  | .ok _ =>
  let s9 := emit (.stageInvoked .staticAnalysis pkg) s8
  let s10 := benchStep cfg.bench package_name "Total static analysis" (st.elapsed pkg 3) s9
  let s11 := emit (.stageInvoked .generateReport pkg) s10
  match st.generate_report package_name with
  | .error cause =>
      ⟨.error ["There was an error generating the results report. Tried to generate at: " ++
               cfg.resultsFolder ++ "/" ++ package_name, cause], cfg, s11.ledger, s11.events⟩
  | .ok _ =>
  let s12 := benchStep cfg.bench package_name "Report generation" (st.elapsed pkg 4) s11
  let s13 := benchStep cfg.bench package_name ("Total time for " ++ package_name)
      (st.elapsed pkg 5) s12
  if cfg.openReport then
    let open_path := cfg.resultsFolder ++ "/" ++ st.app_package pkg ++ "/" ++
      (if cfg.generateHtml then "index.html" else "results.json")
    let s14 := emit (.stageInvoked .openReport pkg) s13
    match st.open_that open_path with
    | .error cause =>
        ⟨.error ["Report could not be opened automatically", cause], cfg, s14.ledger, s14.events⟩
    | .ok status =>
      if !status.success then
        ⟨.error ["Report opening errored with status code: " ++ status.statusLine],
         cfg, s14.ledger, s14.events⟩
      else ⟨.ok (), cfg, s14.ledger, s14.events⟩
  else ⟨.ok (), cfg, s13.ledger, s13.events⟩

/-- The outcome of the run controller's package loop. -/
structure LoopResult where
  res : Except (List String) Unit
  cfg : Config
  ledger : Ledger
  events : List Event

/-- The package loop of `run()`: for each configured package, reset the force
override (`config.reset_force()`, modelled from the spec: it clears the
override) and analyze the package; a failure is wrapped with "Application
analysis failed" and terminates the loop at once. -/
def runLoop (st : Stages) (cfg : Config) (led : Ledger) : List String → LoopResult
  | [] => ⟨.ok (), cfg, led, []⟩
  | p :: rest =>
    let r := analyze_package st p {cfg with force := none} led
    match r.res with
    | .error e => ⟨.error ("Application analysis failed" :: e), r.cfg, r.ledger, r.events⟩
    | .ok _ =>
      let t := runLoop st r.cfg r.ledger rest
      ⟨t.res, t.cfg, t.ledger, r.events ++ t.events⟩

/-- The outcome of `run()`: its `Result`, final configuration and ledger, the
event trace, and — when benchmarking is enabled and every package succeeded —
the printed summary: the ledger groups in `BTreeMap` iteration order together
with the total-time benchmark. -/
structure RunResult where
  res : Except (List String) Unit
  cfg : Config
  ledger : Ledger
  events : List Event
  summary : Option (Ledger × Benchmark)

/-- `run()` after configuration load and validation: run the package loop on
an empty ledger; on success, if benchmarking is enabled, construct the
total-time benchmark and print the summary (the ledger iterated in ascending
key order, each entry's benchmarks in stored order). -/
def run (st : Stages) (cfg : Config) : RunResult :=
  let t := runLoop st cfg [] cfg.appPackages
  match t.res with
  | .error e => ⟨.error e, t.cfg, t.ledger, t.events, none⟩
  | .ok _ =>
    if t.cfg.bench then
      let total : Benchmark := ⟨"Total time", st.total_elapsed⟩
      ⟨.ok (), t.cfg, t.ledger, t.events ++ [Event.benchNew total], some (t.ledger, total)⟩
    else ⟨.ok (), t.cfg, t.ledger, t.events, none⟩

/-- The six benchmarks a bench-enabled, fully successful package run records,
in recorded order (labels as written in `analyze_package`, durations from the
clock oracle). -/
def apBenches (st : Stages) (p : String) : List Benchmark :=
  [⟨"Apk decompression", st.elapsed p 0⟩,
   ⟨"Dex to Jar decompilation (dex2jar Java dependency)", st.elapsed p 1⟩,
   ⟨"Decompilation (jd-cli Java dependency)", st.elapsed p 2⟩,
   ⟨"Total static analysis", st.elapsed p 3⟩,
   ⟨"Report generation", st.elapsed p 4⟩,
   ⟨"Total time for " ++ st.get_package_name p, st.elapsed p 5⟩]

/-- The benchmark labels of a fully successful run of the package named `k`,
in recorded order. -/
def stdLabels (k : String) : List String :=
  ["Apk decompression",
   "Dex to Jar decompilation (dex2jar Java dependency)",
   "Decompilation (jd-cli Java dependency)",
   "Total static analysis",
   "Report generation",
   "Total time for " ++ k]

/-- The ledger a bench-enabled, fully successful package run leaves behind:
a fresh entry under the display name, then the six benchmark pushes. -/
def apLedgerOk (st : Stages) (p : String) (led : Ledger) : Ledger :=
  let name := st.get_package_name p
  bPush name ⟨"Total time for " ++ name, st.elapsed p 5⟩
    (bPush name ⟨"Report generation", st.elapsed p 4⟩
      (bPush name ⟨"Total static analysis", st.elapsed p 3⟩
        (bPush name ⟨"Decompilation (jd-cli Java dependency)", st.elapsed p 2⟩
          (bPush name ⟨"Dex to Jar decompilation (dex2jar Java dependency)", st.elapsed p 1⟩
            (bPush name ⟨"Apk decompression", st.elapsed p 0⟩
              (bInsert name [] led))))))

/-- Events that construct a `Benchmark` or touch the benchmark ledger. -/
def benchEvent : Event → Bool
  | .benchNew _ => true
  | .ledgerInsert _ => true
  | .ledgerPush _ _ => true
  | _ => false

/-- Whether an event, if it is a package start, observes a cleared force
override. -/
def startsWithClearedForce : Event → Bool
  | .packageStart _ f => f.isNone
  | _ => true

/-- The ledger-registration (insertion) order of a trace: the package names of
its `ledgerInsert` events, in trace order — i.e. processing order. -/
def insertionOrder (evs : List Event) : List String :=
  evs.filterMap fun e =>
    match e with
    | .ledgerInsert n => some n
    | _ => none

/-- Keys of a ledger are in strictly ascending lexicographic order (the
`BTreeMap` invariant; `BTreeMap` iteration follows it). -/
def ledgerSorted (led : Ledger) : Prop :=
  led.Pairwise fun a b => strLtb a.1 b.1 = true

/-- The result of the report-generation-and-opening tail of the pipeline
(steps after static analysis), as a function of the oracle and configuration
alone. -/
def reportPhaseRes (st : Stages) (p : String) (cfg : Config) :
    Except (List String) Unit :=
  let package_name := st.get_package_name p
  match st.generate_report package_name with
  | .error cause =>
      .error ["There was an error generating the results report. Tried to generate at: " ++
              cfg.resultsFolder ++ "/" ++ package_name, cause]
  | .ok _ =>
    if cfg.openReport then
      match st.open_that (cfg.resultsFolder ++ "/" ++ st.app_package p ++ "/" ++
          (if cfg.generateHtml then "index.html" else "results.json")) with
      | .error cause => .error ["Report could not be opened automatically", cause]
      | .ok status =>
        if !status.success then
          .error ["Report opening errored with status code: " ++ status.statusLine]
        else .ok ()
    else .ok ()

/-- A concrete oracle where every collaborator call succeeds; package "a"'s
clock readings differ from the others', and the stages leave a force override
behind on the configuration. -/
def okStages : Stages where
  get_package_name := fun p => p
  decompress := fun _ => .ok ()
  dex_to_jar := fun _ => .ok ()
  decompile := fun _ => .ok ()
  results_init := fun _ => .ok ()
  app_package := fun p => p
  generate_report := fun _ => .ok ()
  open_that := fun _ => .ok ⟨0⟩
  elapsed := fun p i => if p = "a" then 100 + i else i
  total_elapsed := 42
  force_effect := fun _ _ => some true

/-- A concrete oracle where package "p2"'s apk decompression fails. -/
def failStages : Stages :=
  {okStages with
    decompress := fun p =>
      if p = "p2" then .error "decompression tool exited with an error" else .ok ()}

/-- A concrete oracle where opening the report yields exit status 3. -/
def openFailStages : Stages :=
  {okStages with open_that := fun _ => .ok ⟨3⟩}

/-- Bench-enabled configuration whose packages are "b" then "a". -/
def cfgBA : Config :=
  ⟨true, false, false, false, false, "results", ["b", "a"], none⟩

/-- Bench-enabled configuration with packages "p1", "p2", "p3". -/
def cfgP3 : Config :=
  {cfgBA with appPackages := ["p1", "p2", "p3"]}

/-- Open-after-generation configuration with the single package "app". -/
def cfgOpen : Config :=
  {cfgBA with appPackages := ["app"], openReport := true}

/-- Bench-disabled configuration with packages "p1", "p2". -/
def cfgNoBench : Config :=
  {cfgBA with bench := false, appPackages := ["p1", "p2"]}

/-- The loop state after processing "p1" under `failStages`. -/
def loop1 : LoopResult :=
  runLoop failStages cfgP3 [] ["p1"]

/-- The failing analysis of "p2" under `failStages`, from the state `loop1`
left behind. -/
def apFail : APResult :=
  analyze_package failStages "p2" {loop1.cfg with force := none} loop1.ledger

/-- The ledger of the fully successful bench-enabled run of `cfgBA`. -/
def runBA_groups : Ledger :=
  (run okStages cfgBA).ledger

/-- The benchmark list a bench-enabled package run leaves under its display
name: the benchmarks of the stages reached before the first failure. It is a
function of the oracle and the package alone — never of the incoming
ledger. -/
def apNameEntry (st : Stages) (p : String) : List Benchmark :=
  match st.decompress p with
  | .error _ => []
  | .ok _ =>
    ⟨"Apk decompression", st.elapsed p 0⟩ ::
    match st.dex_to_jar p with
    | .error _ => []
    | .ok _ =>
      ⟨"Dex to Jar decompilation (dex2jar Java dependency)", st.elapsed p 1⟩ ::
      match st.decompile p with
      | .error _ => []
      | .ok _ =>
        ⟨"Decompilation (jd-cli Java dependency)", st.elapsed p 2⟩ ::
        match st.results_init p with
        | .error _ => []
        | .ok _ =>
          ⟨"Total static analysis", st.elapsed p 3⟩ ::
          match st.generate_report (st.get_package_name p) with
          | .error _ => []
          | .ok _ =>
            [⟨"Report generation", st.elapsed p 4⟩,
             ⟨"Total time for " ++ st.get_package_name p, st.elapsed p 5⟩]

/-- Every entry of the ledger holds the benchmarks of a fully successful run
of its package, labelled in recorded order. -/
def lookGood (led : Ledger) : Prop :=
  ∀ k bs, bLookup k led = some bs → bs.map Benchmark.label = stdLabels k

/-- C1: for every one of the five canonical severity names written in any
letter-casing (any string whose lowercasing is a canonical name), parsing
with `Criticality`'s `FromStr` and then formatting the resulting value with
its `Display` yields the lowercase canonical name. -/
theorem claim1_parse_format_roundtrip (s : String)
    (h : to_lowercase s ∈ canonicalNames) :
    (Criticality.from_str s).map Criticality.display = .ok (to_lowercase s) := by
  simp only [canonicalNames, List.mem_cons, List.not_mem_nil, or_false] at h
  rcases h with h | h | h | h | h <;>
    · simp only [Criticality.from_str]
      rw [h]
      rfl

theorem claim1_witness :
    to_lowercase "CriTICal" ∈ canonicalNames ∧
    (Criticality.from_str "CriTICal").map Criticality.display =
      .ok (to_lowercase "CriTICal") :=
  ⟨by decide, claim1_parse_format_roundtrip "CriTICal" (by decide)⟩

/-- C5: for every string that is not one of the five canonical severity names
under case-insensitive comparison, `Criticality`'s `FromStr` fails with the
`Parse` error kind and returns no value. -/
theorem claim5_invalid_parse_fails (s : String)
    (h : to_lowercase s ∉ canonicalNames) :
    Criticality.from_str s = .error .Parse := by
  simp only [canonicalNames, List.mem_cons, List.not_mem_nil, or_false, not_or] at h
  obtain ⟨h1, h2, h3, h4, h5⟩ := h
  simp [Criticality.from_str, h1, h2, h3, h4, h5]

theorem claim5_witness :
    (to_lowercase "" ∉ canonicalNames ∧ Criticality.from_str "" = .error .Parse) ∧
    (to_lowercase "42" ∉ canonicalNames ∧ Criticality.from_str "42" = .error .Parse) ∧
    (to_lowercase "Warnning" ∉ canonicalNames ∧
      Criticality.from_str "Warnning" = .error .Parse) :=
  ⟨⟨by decide, claim5_invalid_parse_fails "" (by decide)⟩,
   ⟨by decide, claim5_invalid_parse_fails "42" (by decide)⟩,
   ⟨by decide, claim5_invalid_parse_fails "Warnning" (by decide)⟩⟩

/-- C4: serializing any `Criticality` to the structured representation and
deserializing the result yields the original value; and deserializing any
non-string structured node fails with the error carrying the offending
value. -/
theorem claim4_serde_roundtrip :
    (∀ c : Criticality, Criticality.deserialize (Criticality.serialize c) = .ok c) ∧
    (∀ v : TomlValue, v.isStr = false →
      Criticality.deserialize v = .error (.custom v)) := by
  constructor
  · intro c
    cases c <;> rfl
  · intro v hv
    cases v <;> simp_all [TomlValue.isStr, Criticality.deserialize]

theorem claim4_witness :
    Criticality.deserialize (Criticality.serialize .medium) = .ok .medium ∧
    (TomlValue.int 7).isStr = false ∧
    Criticality.deserialize (.int 7) = .error (.custom (.int 7)) :=
  ⟨claim4_serde_roundtrip.1 .medium, rfl, claim4_serde_roundtrip.2 (.int 7) rfl⟩

theorem char_eq_of_toNat_eq (a b : Char) (h : a.toNat = b.toNat) : a = b :=
  Char.eq_of_val_eq (UInt32.ext h)

theorem string_eq_of_data_eq (a b : String) (h : a.data = b.data) : a = b := by
  cases a
  cases b
  simp_all

theorem charListLtb_irrefl (as : List Char) : charListLtb as as = false := by
  induction as with
  | nil => rfl
  | cons a as' ih => simp [charListLtb, ih]

theorem strLtb_irrefl (a : String) : strLtb a a = false :=
  charListLtb_irrefl a.data

theorem strLtb_ne (a b : String) (h : strLtb a b = true) : a ≠ b := by
  intro hab
  subst hab
  rw [strLtb, charListLtb_irrefl] at h
  exact absurd h (by simp)

theorem charListLtb_trans (as : List Char) : ∀ bs cs : List Char,
    charListLtb as bs = true → charListLtb bs cs = true →
      charListLtb as cs = true := by
  induction as with
  | nil =>
    intro bs cs h1 h2
    cases bs with
    | nil => simp [charListLtb] at h1
    | cons b bs' =>
      cases cs with
      | nil => simp [charListLtb] at h2
      | cons c cs' => simp [charListLtb]
  | cons a as' ih =>
    intro bs cs h1 h2
    cases bs with
    | nil => simp [charListLtb] at h1
    | cons b bs' =>
      cases cs with
      | nil => simp [charListLtb] at h2
      | cons c cs' =>
        simp only [charListLtb] at h1 h2 ⊢
        split_ifs at h1 h2 ⊢ <;>
          first
            | rfl
            | omega
            | exact ih bs' cs' h1 h2

theorem strLtb_trans (a b c : String) (h1 : strLtb a b = true)
    (h2 : strLtb b c = true) : strLtb a c = true :=
  charListLtb_trans a.data b.data c.data h1 h2

theorem charListLtb_gt (as : List Char) : ∀ bs : List Char,
    charListLtb as bs = false → as ≠ bs → charListLtb bs as = true := by
  induction as with
  | nil =>
    intro bs h1 h2
    cases bs with
    | nil => exact absurd rfl h2
    | cons b bs' => simp [charListLtb] at h1
  | cons a as' ih =>
    intro bs h1 h2
    cases bs with
    | nil => simp [charListLtb]
    | cons b bs' =>
      simp only [charListLtb] at h1 ⊢
      by_cases hab : a.toNat < b.toNat
      · simp [hab] at h1
      · by_cases hba : b.toNat < a.toNat
        · simp [hab, hba]
        · have hab' : a = b := char_eq_of_toNat_eq a b (by omega)
          subst hab'
          simp [hab, hba] at h1 ⊢
          exact ih bs' h1 fun hh => h2 (by rw [hh])

theorem strLtb_gt (a b : String) (h1 : strLtb a b = false) (h2 : a ≠ b) :
    strLtb b a = true :=
  charListLtb_gt a.data b.data h1 fun h => h2 (string_eq_of_data_eq a b h)

theorem bLookup_bInsert_self (k : String) (v : List Benchmark) (led : Ledger) :
    bLookup k (bInsert k v led) = some v := by
  induction led with
  | nil => simp [bInsert, bLookup]
  | cons hd rest ih =>
    obtain ⟨k', v'⟩ := hd
    by_cases hlt : strLtb k k' = true
    · simp [bInsert, hlt, bLookup]
    · by_cases heq : k = k'
      · simp [bInsert, hlt, heq, bLookup, strLtb_irrefl]
      · have : k' ≠ k := fun h => heq h.symm
        simp [bInsert, hlt, heq, bLookup, this, ih]

theorem bLookup_bInsert_ne (q k : String) (v : List Benchmark) (led : Ledger)
    (hq : q ≠ k) : bLookup q (bInsert k v led) = bLookup q led := by
  have hk : k ≠ q := Ne.symm hq
  induction led with
  | nil => simp [bInsert, bLookup, hk]
  | cons hd rest ih =>
    obtain ⟨k', v'⟩ := hd
    by_cases hlt : strLtb k k' = true
    · simp [bInsert, hlt, bLookup, hk]
    · by_cases heq : k = k'
      · subst heq
        simp [bInsert, hlt, bLookup, hk, strLtb_irrefl]
      · simp [bInsert, hlt, heq, bLookup, ih]

theorem bLookup_bPush_self (k : String) (b : Benchmark) (led : Ledger) :
    bLookup k (bPush k b led) = (bLookup k led).map (· ++ [b]) := by
  induction led with
  | nil => simp [bPush, bLookup]
  | cons hd rest ih =>
    obtain ⟨k', v'⟩ := hd
    by_cases heq : k' = k
    · simp [bPush, heq, bLookup]
    · simp [bPush, heq, bLookup, ih]

theorem bLookup_bPush_ne (q k : String) (b : Benchmark) (led : Ledger)
    (hq : q ≠ k) : bLookup q (bPush k b led) = bLookup q led := by
  have hk : k ≠ q := Ne.symm hq
  induction led with
  | nil => simp [bPush]
  | cons hd rest ih =>
    obtain ⟨k', v'⟩ := hd
    by_cases heq : k' = k
    · subst heq
      simp [bPush, bLookup, hk]
    · by_cases hq' : k' = q
      · simp [bPush, heq, bLookup, hq', hq]
      · simp [bPush, heq, bLookup, hq', ih]

theorem mem_bInsert (x : String × List Benchmark) (k : String)
    (v : List Benchmark) (led : Ledger) (hx : x ∈ bInsert k v led) :
    x = (k, v) ∨ x ∈ led := by
  induction led with
  | nil => simpa [bInsert] using hx
  | cons hd rest ih =>
    obtain ⟨k', v'⟩ := hd
    simp only [bInsert] at hx
    split at hx
    · rcases List.mem_cons.mp hx with h | h
      · exact Or.inl h
      · exact Or.inr h
    · split at hx
      · rcases List.mem_cons.mp hx with h | h
        · exact Or.inl h
        · exact Or.inr (List.mem_cons_of_mem _ h)
      · rcases List.mem_cons.mp hx with h | h
        · exact Or.inr (by simp [h])
        · rcases ih h with h' | h'
          · exact Or.inl h'
          · exact Or.inr (List.mem_cons_of_mem _ h')

theorem bPush_keys (k : String) (b : Benchmark) (led : Ledger) :
    (bPush k b led).map Prod.fst = led.map Prod.fst := by
  induction led with
  | nil => simp [bPush]
  | cons hd rest ih =>
    obtain ⟨k', v'⟩ := hd
    by_cases heq : k' = k <;> simp [bPush, heq, ih]

theorem ledgerSorted_bInsert (k : String) (v : List Benchmark) (led : Ledger)
    (h : ledgerSorted led) : ledgerSorted (bInsert k v led) := by
  induction led with
  | nil => simp [bInsert, ledgerSorted]
  | cons hd rest ih =>
    obtain ⟨k', v'⟩ := hd
    rw [ledgerSorted, List.pairwise_cons] at h
    obtain ⟨hall, hrest⟩ := h
    by_cases hlt : strLtb k k' = true
    · rw [ledgerSorted]
      simp only [bInsert, hlt, if_true]
      refine List.Pairwise.cons ?_ (List.Pairwise.cons hall hrest)
      intro x hx
      rcases List.mem_cons.mp hx with h | h
      · simp [h, hlt]
      · exact strLtb_trans _ _ _ hlt (hall x h)
    · by_cases heq : k = k'
      · subst heq
        rw [ledgerSorted]
        simp only [bInsert, hlt, if_false, if_true]
        exact List.Pairwise.cons hall hrest
      · rw [ledgerSorted]
        simp only [bInsert, hlt, if_false, heq]
        refine List.Pairwise.cons ?_ (ih hrest)
        intro x hx
        rcases mem_bInsert x k v rest hx with h | h
        · subst h
          exact strLtb_gt k k' (Bool.eq_false_iff.mpr hlt) heq
        · exact hall x h

theorem ledgerSorted_bPush (k : String) (b : Benchmark) (led : Ledger)
    (h : ledgerSorted led) : ledgerSorted (bPush k b led) := by
  rw [ledgerSorted] at h ⊢
  have h1 : List.Pairwise (fun x y => strLtb x y = true) (led.map Prod.fst) :=
    List.pairwise_map.mpr h
  have h2 : List.Pairwise (fun x y => strLtb x y = true)
      ((bPush k b led).map Prod.fst) := by
    rw [bPush_keys]
    exact h1
  exact List.pairwise_map.mp h2

theorem ledgerSorted_mem_bLookup (x : String × List Benchmark) (led : Ledger)
    (hsort : ledgerSorted led) (hx : x ∈ led) : bLookup x.1 led = some x.2 := by
  induction led with
  | nil => simp at hx
  | cons hd rest ih =>
    obtain ⟨k', v'⟩ := hd
    rw [ledgerSorted, List.pairwise_cons] at hsort
    obtain ⟨hall, hrest⟩ := hsort
    rcases List.mem_cons.mp hx with h | h
    · simp [bLookup, h]
    · have hne : k' ≠ x.1 := strLtb_ne k' x.1 (hall x h)
      simp [bLookup, hne, ih hrest h]

theorem analyze_package_cfg (st : Stages) (p : String) (cfg : Config) (led : Ledger) :
    (analyze_package st p cfg led).cfg = {cfg with force := st.force_effect p cfg.force} := by
  simp only [analyze_package]
  repeat' split
  all_goals rfl

theorem analyze_package_lookup_ne (st : Stages) (p : String) (cfg : Config)
    (led : Ledger) (k : String) (hk : k ≠ st.get_package_name p) :
    bLookup k (analyze_package st p cfg led).ledger = bLookup k led := by
  simp only [analyze_package, emit, benchStep]
  repeat' split
  all_goals simp_all [bLookup_bInsert_ne, bLookup_bPush_ne, hk, apply_ite (bLookup k)]
  all_goals (repeat' split)
  all_goals simp_all [bLookup_bInsert_ne, bLookup_bPush_ne, hk]

set_option maxHeartbeats 1000000 in
theorem analyze_package_lookup_name (st : Stages) (p : String) (cfg : Config)
    (led : Ledger) (hb : cfg.bench = true) :
    bLookup (st.get_package_name p) (analyze_package st p cfg led).ledger =
      some (apNameEntry st p) := by
  simp [analyze_package, emit, benchStep, hb]
  repeat' split
  all_goals simp_all [apNameEntry, bLookup_bPush_self, bLookup_bInsert_self]

set_option maxHeartbeats 1000000 in
theorem analyze_package_ok_ledger (st : Stages) (p : String) (cfg : Config)
    (led : Ledger) (hb : cfg.bench = true)
    (hok : (analyze_package st p cfg led).res = .ok ()) :
    (analyze_package st p cfg led).ledger = apLedgerOk st p led := by
  simp [analyze_package, emit, benchStep, hb] at hok ⊢
  repeat' split at hok
  all_goals simp_all [apLedgerOk]

theorem analyze_package_no_bench (st : Stages) (p : String) (cfg : Config)
    (led : Ledger) (hb : cfg.bench = false) :
    (analyze_package st p cfg led).ledger = led ∧
    ((analyze_package st p cfg led).events.all fun e => !benchEvent e) = true := by
  simp [analyze_package, emit, benchStep, hb]
  repeat' split
  all_goals simp_all [benchEvent]

set_option maxHeartbeats 1000000 in
theorem analyze_package_force_events (st : Stages) (p : String) (cfg : Config)
    (led : Ledger) (hf : cfg.force = none) :
    ((analyze_package st p cfg led).events.all startsWithClearedForce) = true := by
  cases hb : cfg.bench <;>
    · simp [analyze_package, emit, benchStep, hf, hb]
      repeat' split
      all_goals simp_all [startsWithClearedForce]

theorem apLedgerOk_lookup_self (st : Stages) (p : String) (led : Ledger) :
    bLookup (st.get_package_name p) (apLedgerOk st p led) = some (apBenches st p) := by
  simp [apLedgerOk, apBenches, bLookup_bPush_self, bLookup_bInsert_self]

theorem apLedgerOk_lookup_ne (st : Stages) (p : String) (led : Ledger) (k : String)
    (hk : k ≠ st.get_package_name p) :
    bLookup k (apLedgerOk st p led) = bLookup k led := by
  simp [apLedgerOk, bLookup_bPush_ne, bLookup_bInsert_ne, hk]

theorem apLedgerOk_sorted (st : Stages) (p : String) (led : Ledger)
    (h : ledgerSorted led) : ledgerSorted (apLedgerOk st p led) := by
  simp only [apLedgerOk]
  exact ledgerSorted_bPush _ _ _ (ledgerSorted_bPush _ _ _ (ledgerSorted_bPush _ _ _
    (ledgerSorted_bPush _ _ _ (ledgerSorted_bPush _ _ _ (ledgerSorted_bPush _ _ _
      (ledgerSorted_bInsert _ _ _ h))))))

theorem apBenches_labels (st : Stages) (p : String) :
    (apBenches st p).map Benchmark.label = stdLabels (st.get_package_name p) := rfl

theorem lookGood_apLedgerOk (st : Stages) (p : String) (led : Ledger)
    (hg : lookGood led) : lookGood (apLedgerOk st p led) := by
  intro k bs hlk
  by_cases hk : k = st.get_package_name p
  · subst hk
    rw [apLedgerOk_lookup_self] at hlk
    simp only [Option.some.injEq] at hlk
    subst hlk
    exact apBenches_labels st p
  · rw [apLedgerOk_lookup_ne st p led k hk] at hlk
    exact hg k bs hlk

/-- C9: the static-analysis stage cannot abort the per-package pipeline — for
every run that reaches it (the three stage tools and the results-accumulator
initialization succeeded), static analysis is invoked but the pipeline's
result is exactly the result of the report-generation-and-opening tail, so any
subsequent failure can come only from report generation or report opening. -/
theorem claim9_static_analysis_infallible (st : Stages) (p : String) (cfg : Config)
    (led : Ledger)
    (h1 : st.decompress p = .ok ()) (h2 : st.dex_to_jar p = .ok ())
    (h3 : st.decompile p = .ok ()) (h4 : st.results_init p = .ok ()) :
    (analyze_package st p cfg led).res = reportPhaseRes st p cfg ∧
    Event.stageInvoked .staticAnalysis p ∈ (analyze_package st p cfg led).events := by
  cases hb : cfg.bench <;>
    · simp [analyze_package, reportPhaseRes, emit, benchStep, h1, h2, h3, h4, hb]
      repeat' split
      all_goals simp_all

theorem claim9_witness :
    openFailStages.decompress "app" = .ok () ∧
    openFailStages.dex_to_jar "app" = .ok () ∧
    openFailStages.decompile "app" = .ok () ∧
    openFailStages.results_init "app" = .ok () ∧
    ((analyze_package openFailStages "app" cfgOpen []).res =
        reportPhaseRes openFailStages "app" cfgOpen ∧
      Event.stageInvoked .staticAnalysis "app" ∈
        (analyze_package openFailStages "app" cfgOpen []).events) :=
  ⟨rfl, rfl, rfl, rfl,
   claim9_static_analysis_infallible openFailStages "app" cfgOpen [] rfl rfl rfl rfl⟩

/-- C7: for a package with the open-after-generation option set, when the
report was generated successfully but the external open handler exits with a
non-success status, the package run returns the error naming the status code —
and the report generation already happened (the pipeline has no operation
undoing it). -/
theorem claim7_open_failure (st : Stages) (p : String) (cfg : Config) (led : Ledger)
    (status : ExitStatus)
    (ho : cfg.openReport = true)
    (h1 : st.decompress p = .ok ()) (h2 : st.dex_to_jar p = .ok ())
    (h3 : st.decompile p = .ok ()) (h4 : st.results_init p = .ok ())
    (h5 : st.generate_report (st.get_package_name p) = .ok ())
    (h6 : st.open_that (cfg.resultsFolder ++ "/" ++ st.app_package p ++ "/" ++
        (if cfg.generateHtml then "index.html" else "results.json")) = .ok status)
    (h7 : status.success = false) :
    (analyze_package st p cfg led).res =
      .error ["Report opening errored with status code: " ++ status.statusLine] ∧
    Event.stageInvoked .generateReport p ∈ (analyze_package st p cfg led).events := by
  cases hb : cfg.bench <;>
    simp [analyze_package, emit, benchStep, ho, h1, h2, h3, h4, h5, h6, h7, hb]

theorem claim7_witness :
    cfgOpen.openReport = true ∧
    openFailStages.generate_report "app" = .ok () ∧
    openFailStages.open_that ("results/app/results.json") = .ok ⟨3⟩ ∧
    ExitStatus.success ⟨3⟩ = false ∧
    ((analyze_package openFailStages "app" cfgOpen []).res =
        .error ["Report opening errored with status code: " ++ ExitStatus.statusLine ⟨3⟩] ∧
      Event.stageInvoked .generateReport "app" ∈
        (analyze_package openFailStages "app" cfgOpen []).events) :=
  ⟨rfl, rfl, rfl, rfl,
   claim7_open_failure openFailStages "app" cfgOpen [] ⟨3⟩ rfl rfl rfl rfl rfl rfl rfl rfl⟩

/-- C10: when benchmarking is enabled, a package's run begins by inserting a
fresh empty benchmark sequence under its display name — so the entry the run
leaves under that name is independent of the incoming ledger, and in
particular the benchmarks an earlier same-named package recorded are
discarded. -/
theorem claim10_ledger_insert_replaces (st : Stages) (p : String) (cfg : Config)
    (led led' : Ledger) (hb : cfg.bench = true) :
    (analyze_package st p cfg led).events.take 2 =
      [Event.packageStart p cfg.force, Event.ledgerInsert (st.get_package_name p)] ∧
    bLookup (st.get_package_name p) (analyze_package st p cfg led).ledger =
      bLookup (st.get_package_name p) (analyze_package st p cfg led').ledger := by
  constructor
  · simp [analyze_package, emit, benchStep, hb]
    repeat' split
    all_goals simp_all
  · rw [analyze_package_lookup_name st p cfg led hb,
      analyze_package_lookup_name st p cfg led' hb]

theorem claim10_witness :
    cfgBA.bench = true ∧
    ((analyze_package okStages "a" cfgBA [("a", [⟨"stale", 9⟩])]).events.take 2 =
        [Event.packageStart "a" cfgBA.force, Event.ledgerInsert "a"] ∧
      bLookup "a" (analyze_package okStages "a" cfgBA [("a", [⟨"stale", 9⟩])]).ledger =
        bLookup "a" (analyze_package okStages "a" cfgBA []).ledger) :=
  ⟨rfl, claim10_ledger_insert_replaces okStages "a" cfgBA [("a", [⟨"stale", 9⟩])] [] rfl⟩

theorem runLoop_cfg_bench (st : Stages) (pkgs : List String) :
    ∀ cfg led, (runLoop st cfg led pkgs).cfg.bench = cfg.bench := by
  induction pkgs with
  | nil => intro cfg led; simp [runLoop]
  | cons p rest ih =>
    intro cfg led
    simp only [runLoop]
    cases hr : (analyze_package st p {cfg with force := none} led).res with
    | error e => simp [hr, analyze_package_cfg]
    | ok u => simp [hr, ih, analyze_package_cfg]

theorem runLoop_no_bench (st : Stages) (pkgs : List String) :
    ∀ cfg led, cfg.bench = false →
      (runLoop st cfg led pkgs).ledger = led ∧
      ((runLoop st cfg led pkgs).events.all fun e => !benchEvent e) = true := by
  induction pkgs with
  | nil => intro cfg led hb; simp [runLoop]
  | cons p rest ih =>
    intro cfg led hb
    have hb' : ({cfg with force := none} : Config).bench = false := hb
    obtain ⟨hap1, hap2⟩ := analyze_package_no_bench st p {cfg with force := none} led hb'
    have hcfg := analyze_package_cfg st p {cfg with force := none} led
    have hb'' : (analyze_package st p {cfg with force := none} led).cfg.bench = false := by
      rw [hcfg]; exact hb
    obtain ⟨ih1, ih2⟩ := ih (analyze_package st p {cfg with force := none} led).cfg led hb''
    simp only [runLoop]
    cases hr : (analyze_package st p {cfg with force := none} led).res with
    | error e => simp [hr, hap1, hap2]
    | ok u => simp [hr, hap1, hap2, ih1, ih2, List.all_append]

/-- C6: for every run with benchmarking disabled, whether it fails or
succeeds, no `Benchmark` is ever constructed and the ledger is never inserted
into or appended to (the trace has no benchmark events), the ledger stays
empty, and the benchmark summary section is not printed. -/
theorem claim6_no_bench (st : Stages) (cfg : Config) (hb : cfg.bench = false) :
    (run st cfg).summary = none ∧ (run st cfg).ledger = [] ∧
    ((run st cfg).events.all fun e => !benchEvent e) = true := by
  obtain ⟨h1, h2⟩ := runLoop_no_bench st cfg.appPackages cfg [] hb
  have h3 := runLoop_cfg_bench st cfg.appPackages cfg []
  simp only [run]
  cases hr : (runLoop st cfg [] cfg.appPackages).res with
  | error e => simp [hr, h1, h2]
  | ok u => simp [hr, h1, h2, h3, hb]

theorem claim6_witness :
    cfgNoBench.bench = false ∧
    ((run okStages cfgNoBench).summary = none ∧
      (run okStages cfgNoBench).ledger = [] ∧
      ((run okStages cfgNoBench).events.all fun e => !benchEvent e) = true) :=
  ⟨rfl, claim6_no_bench okStages cfgNoBench rfl⟩

theorem runLoop_all_cleared (st : Stages) (pkgs : List String) :
    ∀ cfg led, ((runLoop st cfg led pkgs).events.all startsWithClearedForce) = true := by
  induction pkgs with
  | nil => intro cfg led; simp [runLoop]
  | cons p rest ih =>
    intro cfg led
    have hap := analyze_package_force_events st p {cfg with force := none} led rfl
    simp only [runLoop]
    cases hr : (analyze_package st p {cfg with force := none} led).res with
    | error e => simp [hr, hap]
    | ok u => simp [hr, hap, ih, List.all_append]

/-- C8: the run controller resets the per-package force override
(`config.reset_force()`, modelled from the spec as clearing it) before every
package's pipeline run, so every pipeline — in particular package N+1's after
package N's stages left an override behind — observes a cleared override at
its start. -/
theorem claim8_force_reset (st : Stages) (cfg : Config) :
    ((run st cfg).events.all startsWithClearedForce) = true := by
  have h := runLoop_all_cleared st cfg.appPackages cfg []
  simp only [run]
  cases hr : (runLoop st cfg [] cfg.appPackages).res with
  | error e => simp [hr, h]
  | ok u =>
    by_cases hb : (runLoop st cfg [] cfg.appPackages).cfg.bench = true
    · simp [hr, hb, h, startsWithClearedForce, List.all_append]
    · simp [hr, hb, h]

theorem runLoop_cons_ok (st : Stages) (cfg : Config) (led : Ledger) (q : String)
    (L : List String) (u : Unit)
    (hq : (analyze_package st q {cfg with force := none} led).res = .ok u) :
    runLoop st cfg led (q :: L) =
      ⟨(runLoop st (analyze_package st q {cfg with force := none} led).cfg
          (analyze_package st q {cfg with force := none} led).ledger L).res,
       (runLoop st (analyze_package st q {cfg with force := none} led).cfg
          (analyze_package st q {cfg with force := none} led).ledger L).cfg,
       (runLoop st (analyze_package st q {cfg with force := none} led).cfg
          (analyze_package st q {cfg with force := none} led).ledger L).ledger,
       (analyze_package st q {cfg with force := none} led).events ++
         (runLoop st (analyze_package st q {cfg with force := none} led).cfg
           (analyze_package st q {cfg with force := none} led).ledger L).events⟩ := by
  simp only [runLoop, hq]

theorem runLoop_fail_append (st : Stages) (post : List String) (p : String)
    (pre : List String) :
    ∀ cfg led cfg1 led1 evs1 e,
      runLoop st cfg led pre = ⟨.ok (), cfg1, led1, evs1⟩ →
      (analyze_package st p {cfg1 with force := none} led1).res = .error e →
      runLoop st cfg led (pre ++ p :: post) =
        ⟨.error ("Application analysis failed" :: e),
         (analyze_package st p {cfg1 with force := none} led1).cfg,
         (analyze_package st p {cfg1 with force := none} led1).ledger,
         evs1 ++ (analyze_package st p {cfg1 with force := none} led1).events⟩ := by
  induction pre with
  | nil =>
    intro cfg led cfg1 led1 evs1 e hpre hfail
    simp only [runLoop] at hpre
    injection hpre with h1 h2 h3 h4
    subst h2; subst h3; subst h4
    simp only [List.nil_append, runLoop, hfail, List.nil_append]
  | cons q pre ih =>
    intro cfg led cfg1 led1 evs1 e hpre hfail
    simp only [runLoop] at hpre
    cases hq : (analyze_package st q {cfg with force := none} led).res with
    | error e' =>
      rw [hq] at hpre
      exact absurd hpre (by simp)
    | ok u =>
      rw [hq] at hpre
      injection hpre with h1 h2 h3 h4
      subst h4
      have hpre' : runLoop st (analyze_package st q {cfg with force := none} led).cfg
          (analyze_package st q {cfg with force := none} led).ledger pre =
          ⟨.ok (), cfg1, led1,
           (runLoop st (analyze_package st q {cfg with force := none} led).cfg
             (analyze_package st q {cfg with force := none} led).ledger pre).events⟩ := by
        rw [← h2, ← h3, ← h1]
      have hrest := ih (analyze_package st q {cfg with force := none} led).cfg
        (analyze_package st q {cfg with force := none} led).ledger cfg1 led1 _ e hpre' hfail
      rw [List.cons_append, runLoop_cons_ok st cfg led q (pre ++ p :: post) u hq, hrest]
      simp [List.append_assoc]

/-- C2: the multi-package run is fail-fast — whenever the packages are a
prefix whose pipelines all succeed, followed by a package whose pipeline
fails, `run` returns the failure wrapped with "Application analysis failed"
right there: the trace is exactly the prefix packages' complete pipelines
followed by the failing package's partial pipeline, with not a single stage
invoked for any later package, and no summary is printed. -/
theorem claim2_fail_fast (st : Stages) (cfg : Config) (pre post : List String)
    (p : String) (cfg1 : Config) (led1 : Ledger) (evs1 : List Event) (e : List String)
    (hpkgs : cfg.appPackages = pre ++ p :: post)
    (hpre : runLoop st cfg [] pre = ⟨.ok (), cfg1, led1, evs1⟩)
    (hfail : (analyze_package st p {cfg1 with force := none} led1).res = .error e) :
    run st cfg = ⟨.error ("Application analysis failed" :: e),
      (analyze_package st p {cfg1 with force := none} led1).cfg,
      (analyze_package st p {cfg1 with force := none} led1).ledger,
      evs1 ++ (analyze_package st p {cfg1 with force := none} led1).events, none⟩ := by
  have h := runLoop_fail_append st post p pre cfg [] cfg1 led1 evs1 e hpre hfail
  simp only [run, hpkgs, h]

theorem claim2_witness :
    cfgP3.appPackages = ["p1"] ++ "p2" :: ["p3"] ∧
    runLoop failStages cfgP3 [] ["p1"] = ⟨.ok (), loop1.cfg, loop1.ledger, loop1.events⟩ ∧
    apFail.res = .error ["apk decompression failed",
      "decompression tool exited with an error"] ∧
    run failStages cfgP3 =
      ⟨.error ("Application analysis failed" ::
         ["apk decompression failed", "decompression tool exited with an error"]),
       apFail.cfg, apFail.ledger, loop1.events ++ apFail.events, none⟩ :=
  ⟨rfl, rfl, rfl,
   claim2_fail_fast failStages cfgP3 ["p1"] ["p3"] "p2" loop1.cfg loop1.ledger
     loop1.events ["apk decompression failed", "decompression tool exited with an error"]
     rfl rfl rfl⟩

/-- C3 counterexample: in the bench-enabled run of packages "b" then "a"
(all stages succeeding), the packages are registered — i.e. processed — in the
order ["b", "a"], but the printed summary groups come out in `BTreeMap` key
order ["a", "b"], which is not the insertion order. -/
theorem claim3_counterexample :
    insertionOrder (run okStages cfgBA).events = ["b", "a"] ∧
    ((run okStages cfgBA).summary.map fun s => s.1.map Prod.fst) = some ["a", "b"] ∧
    (["a", "b"] : List String) ≠ ["b", "a"] :=
  ⟨rfl, by rfl, by decide⟩

theorem runLoop_good (st : Stages) (pkgs : List String) :
    ∀ cfg led, cfg.bench = true → ledgerSorted led → lookGood led →
      (runLoop st cfg led pkgs).res = .ok () →
      ledgerSorted (runLoop st cfg led pkgs).ledger ∧
        lookGood (runLoop st cfg led pkgs).ledger := by
  induction pkgs with
  | nil =>
    intro cfg led hb hs hg hok
    simpa [runLoop] using And.intro hs hg
  | cons p rest ih =>
    intro cfg led hb hs hg hok
    have hb' : ({cfg with force := none} : Config).bench = true := hb
    cases hq : (analyze_package st p {cfg with force := none} led).res with
    | error e =>
      simp [runLoop, hq] at hok
    | ok u =>
      cases u
      have hled := analyze_package_ok_ledger st p {cfg with force := none} led hb' hq
      have hcfgb : (analyze_package st p {cfg with force := none} led).cfg.bench = true := by
        rw [analyze_package_cfg]; exact hb
      have hs' : ledgerSorted (analyze_package st p {cfg with force := none} led).ledger := by
        rw [hled]; exact apLedgerOk_sorted st p led hs
      have hg' : lookGood (analyze_package st p {cfg with force := none} led).ledger := by
        rw [hled]; exact lookGood_apLedgerOk st p led hg
      rw [runLoop_cons_ok st cfg led p rest () hq] at hok ⊢
      exact ih (analyze_package st p {cfg with force := none} led).cfg
        (analyze_package st p {cfg with force := none} led).ledger hcfgb hs' hg' hok

/-- C3 (amended): when benchmarking is enabled and every package succeeds, the
final summary prints the per-package groups in ascending lexicographic order
of the package display names — the iteration order of the `BTreeMap` ledger,
which coincides with the processing order only if the packages happen to be
processed in sorted name order — and each group's benchmarks in recorded
order (the pipeline's stage labels in pipeline order). -/
theorem claim3_summary_sorted_groups (st : Stages) (cfg : Config)
    (groups : Ledger) (total : Benchmark)
    (h : (run st cfg).summary = some (groups, total)) :
    ledgerSorted groups ∧
    ∀ x ∈ groups, x.2.map Benchmark.label = stdLabels x.1 := by
  simp only [run] at h
  cases hr : (runLoop st cfg [] cfg.appPackages).res with
  | error e => simp [hr] at h
  | ok u =>
    cases u
    by_cases hb : (runLoop st cfg [] cfg.appPackages).cfg.bench = true
    · simp only [hr, hb, if_true] at h
      simp only [Option.some.injEq, Prod.mk.injEq] at h
      obtain ⟨hgrp, -⟩ := h
      have hcb : cfg.bench = true := by
        rw [← runLoop_cfg_bench st cfg.appPackages cfg []]; exact hb
      have hgood := runLoop_good st cfg.appPackages cfg [] hcb
        (by simp [ledgerSorted]) (fun k bs hkk => by simp [bLookup] at hkk) hr
      rw [← hgrp]
      refine ⟨hgood.1, ?_⟩
      intro x hx
      exact hgood.2 x.1 x.2 (ledgerSorted_mem_bLookup x _ hgood.1 hx)
    · simp [hr, hb] at h

theorem claim3_witness :
    (run okStages cfgBA).summary = some (runBA_groups, ⟨"Total time", 42⟩) ∧
    (ledgerSorted runBA_groups ∧
      ∀ x ∈ runBA_groups, x.2.map Benchmark.label = stdLabels x.1) :=
  ⟨rfl, claim3_summary_sorted_groups okStages cfgBA runBA_groups ⟨"Total time", 42⟩ rfl⟩

end SuperAnalyzer
